import Mathlib

/-!
Verification of the contributor-normalization core of the
`ticket_extracting_app_fe` repository.

The development shallowly embeds the contributor-handling logic of the
frontend:

* `src/utils/validation.ts` − the display helpers `getContributorName`,
  `getContributorNames`, `getContributorNamesString`,
  `getContributorDisplayValue`, modelled over a small JavaScript value type
  (`JSVal`).  Property access on `null`/`undefined` throws in JavaScript, so
  these functions are embedded in `Except String`.
* `src/hooks/useContributors.ts` − `findContributorByName`.
* `src/components/TicketEditor.tsx` − the contributor-processing part of
  `handleFormSubmit`.
* `MultiContributorField` (in `src/components/ConsolidateTable.tsx`) −
  `getContributorName`/`getContributorId`/`isContributorAlreadyAdded`/
  `addContributor`/`removeContributor`.
* `src/services/ticketService.ts` − the contributor shaping performed by
  `updateTicket`.
-/

/-! ## A small model of JavaScript values -/

/-- A JavaScript value, as far as the contributor helpers inspect one:
`null`, `undefined`, strings, numbers, booleans, plain objects (association
lists of fields) and arrays. -/
inductive JSVal where
  | null
  | undefined
  | str (s : String)
  | num (n : Int)
  | bool (b : Bool)
  | obj (fields : List (String × JSVal))
  | arr (elems : List JSVal)

/-- JavaScript truthiness: `null`, `undefined`, `''`, `0` and `false` are
falsy; objects and arrays are always truthy. -/
def truthy : JSVal → Bool
  | .null => false
  | .undefined => false
  | .str s => s ≠ ""
  | .num n => n ≠ 0
  | .bool b => b
  | .obj _ => true
  | .arr _ => true

/-- The test `typeof v === 'string'`. -/
def isStr : JSVal → Bool
  | .str _ => true
  | _ => false

/-- The test `v === null`. -/
def isNull : JSVal → Bool
  | .null => true
  | _ => false

/-- The test `Array.isArray(v)`. -/
def isArray : JSVal → Bool
  | .arr _ => true
  | _ => false

/-- The result of `typeof` (note the JavaScript quirk
`typeof null === 'object'`). -/
def typeofStr : JSVal → String
  | .null => "object"
  | .undefined => "undefined"
  | .str _ => "string"
  | .num _ => "number"
  | .bool _ => "boolean"
  | .obj _ => "object"
  | .arr _ => "object"

/-- Model of `String.prototype.toLowerCase()`: character-wise lowering, written by
structural recursion over the character list so that concrete lookups
evaluate inside the kernel. -/
def jsToLower (s : String) : String :=
  String.mk (s.data.map Char.toLower)

/-- Model of `String.prototype.trim()`: strip leading and trailing whitespace,
written by structural recursion so that concrete values evaluate. -/
def jsTrim (s : String) : String :=
  String.mk (((s.data.dropWhile Char.isWhitespace).reverse.dropWhile
    Char.isWhitespace).reverse)

/-- Model of `s.split(', ')[0]` over the character list: the prefix up to the first
occurrence of the separator `", "` (the whole string when the separator is
absent). -/
def firstSplitComponent : List Char → List Char
  | [] => []
  | c :: rest =>
    if c = ',' then
      match rest with
      | ' ' :: _ => []
      | _ => c :: firstSplitComponent rest
    else c :: firstSplitComponent rest

/-- Model of `s.split(', ')[0]`. -/
def firstSplitComma (s : String) : String :=
  String.mk (firstSplitComponent s.data)

/-- The underlying string of a string value (only used under an `isStr`
guard). -/
def strOf : JSVal → String
  | .str s => s
  | _ => ""

/-- The underlying element list of an array value (only used under an
`isArray` guard). -/
def arrOf : JSVal → List JSVal
  | .arr l => l
  | _ => []

/-- Pure field lookup: `undefined` for a missing field, and for primitives
(which have none of the fields this code reads). -/
def fieldOf (v : JSVal) (k : String) : JSVal :=
  match v with
  | .obj fs => ((fs.find? (fun p => p.1 == k)).map Prod.snd).getD .undefined
  | _ => .undefined

/-- Property access `v[k]`: throws a `TypeError` on `null`/`undefined`,
otherwise yields the field (or `undefined`). -/
def getField (v : JSVal) (k : String) : Except String JSVal :=
  match v with
  | .null => .error "TypeError: cannot read properties of null"
  | .undefined => .error "TypeError: cannot read properties of undefined"
  | _ => .ok (fieldOf v k)

theorem getField_ok (v : JSVal) (k : String) (h : truthy v = true) :
    getField v k = .ok (fieldOf v k) := by
  cases v <;> simp_all [truthy, getField]

/-! ## `src/utils/validation.ts`: the display helpers -/

namespace Validation

/-- Embedding of `getContributorName` (validation.ts lines 199−206):

```ts
if (!contributor) return '';
if (typeof contributor === 'string') return contributor.trim();
if (typeof contributor === 'object' && contributor !== null && contributor.name) {
  return typeof contributor.name === 'string' ? contributor.name.trim() : '';
}
return '';
``` -/
def getContributorName (contributor : JSVal) : Except String String :=
  if truthy contributor = false then .ok ""
  else if isStr contributor then .ok (jsTrim (strOf contributor))
  else if typeofStr contributor == "object" && isNull contributor = false then
    match getField contributor "name" with
    | .error e => .error e
    | .ok n =>
      if truthy n then .ok (if isStr n then jsTrim (strOf n) else "")
      else .ok ""
  else .ok ""

/-- Pure reading of `getContributorName`: the trimmed best-effort display
name of a contributor reference (empty when no string form exists). -/
def displayNamePure (v : JSVal) : String :=
  if truthy v = false then ""
  else if isStr v then jsTrim (strOf v)
  else if typeofStr v == "object" && isNull v = false then
    let n := fieldOf v "name"
    if truthy n then (if isStr n then jsTrim (strOf n) else "") else ""
  else ""

theorem getContributorName_ok (v : JSVal) :
    getContributorName v = .ok (displayNamePure v) := by
  cases v <;> simp [getContributorName, displayNamePure, truthy, isStr,
    typeofStr, isNull, getField, fieldOf] <;> split <;> simp

/-- Embedding of the `contributors.map(c => getContributorName(c))` step of
`getContributorNames`: JavaScript `Array.prototype.map`, with the first
thrown exception propagating. -/
def mapNames : List JSVal → Except String (List String)
  | [] => .ok []
  | c :: rest =>
    match getContributorName c with
    | .error e => .error e
    | .ok n =>
      match mapNames rest with
      | .error e => .error e
      | .ok ns => .ok (n :: ns)

theorem mapNames_ok (l : List JSVal) :
    mapNames l = .ok (l.map displayNamePure) := by
  induction l with
  | nil => rfl
  | cons c rest ih => simp [mapNames, getContributorName_ok, ih]

/-- Embedding of `getContributorNames` (validation.ts lines 208−211):

```ts
if (!contributors || !Array.isArray(contributors)) return [];
return contributors.map(c => getContributorName(c)).filter(name => name !== '');
``` -/
def getContributorNames (contributors : JSVal) : Except String (List String) :=
  if truthy contributors = false || isArray contributors = false then .ok []
  else
    match mapNames (arrOf contributors) with
    | .error e => .error e
    | .ok names => .ok (names.filter (fun name => name ≠ ""))

/-- Pure reading of `getContributorNames`. -/
def contributorNamesPure (v : JSVal) : List String :=
  if truthy v = false || isArray v = false then []
  else ((arrOf v).map displayNamePure).filter (fun name => name ≠ "")

theorem getContributorNames_ok (v : JSVal) :
    getContributorNames v = .ok (contributorNamesPure v) := by
  unfold getContributorNames contributorNamesPure
  split
  · rfl
  · simp [mapNames_ok]

/-- Embedding of `getContributorNamesString` (validation.ts lines 213−216). -/
def getContributorNamesString (contributors : JSVal) : Except String String :=
  match getContributorNames contributors with
  | .error e => .error e
  | .ok names => .ok (String.intercalate ", " names)

theorem getContributorNamesString_ok (v : JSVal) :
    getContributorNamesString v
      = .ok (String.intercalate ", " (contributorNamesPure v)) := by
  simp [getContributorNamesString, getContributorNames_ok]

/-- Embedding of `getContributorDisplayValue` (validation.ts lines 218−238):

```ts
if (!ticket) return '';
if (ticket.contributorNames && typeof ticket.contributorNames === 'string') {
  return ticket.contributorNames;
}
if (ticket.contributors && Array.isArray(ticket.contributors) && ticket.contributors.length > 0) {
  return getContributorNamesString(ticket.contributors);
}
if (ticket.contributor) {
  return getContributorName(ticket.contributor);
}
return '';
``` -/
def getContributorDisplayValue (ticket : JSVal) : Except String String :=
  if truthy ticket = false then .ok ""
  else
    match getField ticket "contributorNames" with
    | .error e => .error e
    | .ok cn =>
      if truthy cn && isStr cn then .ok (strOf cn)
      else
        match getField ticket "contributors" with
        | .error e => .error e
        | .ok cs =>
          if truthy cs && isArray cs && decide ((arrOf cs).length > 0) then
            getContributorNamesString cs
          else
            match getField ticket "contributor" with
            | .error e => .error e
            | .ok c => if truthy c then getContributorName c else .ok ""

/-- The display-value projection as the code actually computes it (pure
form): rule 1 returns `contributorNames` verbatim when it is a non-empty
string; rule 2 joins the *trimmed* display names of the entries of a
non-empty `contributors` array, *dropping empty ones*, with `", "`; rule 3
returns the trimmed display name of `contributor` when that is truthy;
rule 4 yields the empty string. -/
def displayValuePure (t : JSVal) : String :=
  if truthy t = false then ""
  else
    let cn := fieldOf t "contributorNames"
    if truthy cn && isStr cn then strOf cn
    else
      let cs := fieldOf t "contributors"
      if truthy cs && isArray cs && decide ((arrOf cs).length > 0) then
        String.intercalate ", "
          (((arrOf cs).map displayNamePure).filter (fun name => name ≠ ""))
      else
        let c := fieldOf t "contributor"
        if truthy c then displayNamePure c else ""

theorem getContributorDisplayValue_ok (t : JSVal) :
    getContributorDisplayValue t = .ok (displayValuePure t) := by
  by_cases h : truthy t = true
  · have e1 := getField_ok t "contributorNames" h
    have e2 := getField_ok t "contributors" h
    have e3 := getField_ok t "contributor" h
    by_cases h1 : (truthy (fieldOf t "contributorNames")
        && isStr (fieldOf t "contributorNames")) = true
    · simp [getContributorDisplayValue, displayValuePure, h, e1, e2, e3, h1]
    · by_cases h2 : (truthy (fieldOf t "contributors")
          && isArray (fieldOf t "contributors")
          && decide ((arrOf (fieldOf t "contributors")).length > 0)) = true
      · have h2' := h2
        simp only [Bool.and_eq_true] at h2'
        simp [getContributorDisplayValue, displayValuePure, h, e1, e2, e3, h1,
          h2, getContributorNamesString_ok, contributorNamesPure,
          h2'.1.1, h2'.1.2, of_decide_eq_true h2'.2]
      · by_cases h3 : truthy (fieldOf t "contributor") = true
        · simp [getContributorDisplayValue, displayValuePure, h, e1, e2, e3,
            h1, h2, h3, getContributorName_ok]
        · simp [getContributorDisplayValue, displayValuePure, h, e1, e2, e3,
            h1, h2, h3]
  · simp at h
    simp [getContributorDisplayValue, displayValuePure, h]

end Validation

/-! ## Directory entries and contributor references -/

/-- A registered directory entry (`Contributor` in `src/types/contributor.ts`);
only the fields the contributor logic reads are modelled. -/
structure Contributor where
  id : Nat
  name : String
  email : String
  active : Bool
deriving DecidableEq, Repr

/-- A contributor reference as stored on a ticket: either a bare name string
or an object.  Object fields mirror the duck-typed TypeScript values: `id`
and `name` may each be absent (`none`). -/
inductive ContribEntry where
  | str (s : String)
  | obj (id : Option Nat) (name : Option String)
deriving DecidableEq, Repr

/-- JavaScript truthiness of an optional numeric `id` field (absent or `0`
is falsy). -/
def idTruthy : Option Nat → Bool
  | some n => n ≠ 0
  | none => false

/-- JavaScript truthiness of an optional string field (absent or `''` is
falsy). -/
def nameTruthy : Option String → Bool
  | some s => s ≠ ""
  | none => false

/-- Truthiness of a contributor reference: strings by emptiness, objects
always truthy. -/
def entryTruthy : ContribEntry → Bool
  | .str s => s ≠ ""
  | .obj _ _ => true

/-- A directory entry viewed as a ticket reference. -/
def Contributor.toEntry (c : Contributor) : ContribEntry :=
  .obj (some c.id) (some c.name)

/-! ## `src/hooks/useContributors.ts`: `findContributorByName` -/

namespace Hooks

/-- Embedding of `findContributorByName` (useContributors.ts lines 58−72):

```ts
let found = activeContributors.find(c => c.name.toLowerCase() === name.toLowerCase());
if (!found && contributors.length > 0) {
  found = contributors.find(c => c.name.toLowerCase() === name.toLowerCase());
}
return found;
```

`active` is the active-only cache, `full` the full cache. -/
def findContributorByName (active full : List Contributor) (name : String) :
    Option Contributor :=
  let found := active.find? (fun c => jsToLower c.name == jsToLower name)
  if found = none ∧ 0 < full.length then
    full.find? (fun c => jsToLower c.name == jsToLower name)
  else found

theorem findContributorByName_congr (active full : List Contributor)
    (q₁ q₂ : String) (h : jsToLower q₁ = jsToLower q₂) :
    findContributorByName active full q₁ = findContributorByName active full q₂ := by
  simp [findContributorByName, h]

theorem findContributorByName_active_first (active full : List Contributor)
    (q : String) (c : Contributor)
    (h : active.find? (fun c => jsToLower c.name == jsToLower q) = some c) :
    findContributorByName active full q = some c := by
  simp [findContributorByName, h]

theorem findContributorByName_none_iff (active full : List Contributor)
    (q : String) :
    findContributorByName active full q = none
      ↔ ((∀ c ∈ active, jsToLower c.name ≠ jsToLower q)
          ∧ (∀ c ∈ full, jsToLower c.name ≠ jsToLower q)) := by
  simp only [findContributorByName]
  by_cases hf : active.find? (fun c => jsToLower c.name == jsToLower q) = none
  · have hact : ∀ c ∈ active, jsToLower c.name ≠ jsToLower q := fun c hc => by
      simpa using List.find?_eq_none.mp hf c hc
    by_cases hl : 0 < full.length
    · rw [if_pos ⟨hf, hl⟩]
      constructor
      · intro h
        exact ⟨hact, fun c hc => by simpa using List.find?_eq_none.mp h c hc⟩
      · rintro ⟨-, hb⟩
        exact List.find?_eq_none.mpr fun c hc => by simpa using hb c hc
    · rw [if_neg (fun hcon => hl hcon.2)]
      have hfull : full = [] := by
        cases full with
        | nil => rfl
        | cons d ds => exact absurd (by simp) hl
      subst hfull
      simpa [hf] using hact
  · rw [if_neg (fun hcon => hf hcon.1)]
    rcases Option.ne_none_iff_exists'.mp hf with ⟨c, hc⟩
    have hp := List.find?_some hc
    have hmem := List.mem_of_find?_eq_some hc
    rw [hc]
    constructor
    · intro h
      simp at h
    · rintro ⟨ha, -⟩
      exact absurd (by simpa using hp) (ha c hmem)

end Hooks

/-! ## `src/components/TicketEditor.tsx`: contributor processing in
`handleFormSubmit` -/

namespace Editor

/-- The three parallel outputs accumulated by the `data.contributors.forEach`
loop of `handleFormSubmit` (TicketEditor.tsx lines 233−254).
`contributorNames` entries are `Option String` because the code pushes
`contributor.name` unchecked, which may be `undefined` for a malformed
object. -/
structure MergeResult where
  processedContributors : List ContribEntry
  contributorIds : List Nat
  contributorNames : List (Option String)
deriving DecidableEq, Repr

/-- One iteration of the `forEach` body:

```ts
if (typeof contributor === 'string') {
  const foundContributor = findContributorByName(contributor);
  if (foundContributor) { ids.push(found.id); names.push(found.name); processed.push(found); }
  else { names.push(contributor); processed.push(contributor); }
} else if (contributor && typeof contributor === 'object' && contributor.id) {
  ids.push(contributor.id); names.push(contributor.name); processed.push(contributor);
}
``` -/
def processStep (active full : List Contributor) (acc : MergeResult)
    (contributor : ContribEntry) : MergeResult :=
  match contributor with
  | .str s =>
    match Hooks.findContributorByName active full s with
    | some found =>
      ⟨acc.processedContributors ++ [found.toEntry],
        acc.contributorIds ++ [found.id],
        acc.contributorNames ++ [some found.name]⟩
    | none =>
      ⟨acc.processedContributors ++ [.str s],
        acc.contributorIds,
        acc.contributorNames ++ [some s]⟩
  | .obj oid oname =>
    if idTruthy oid then
      ⟨acc.processedContributors ++ [.obj oid oname],
        acc.contributorIds ++ [oid.getD 0],
        acc.contributorNames ++ [oname]⟩
    else acc

/-- The whole `forEach` merge loop over `data.contributors`, in input
order. -/
def processContributors (active full : List Contributor)
    (entries : List ContribEntry) : MergeResult :=
  entries.foldl (processStep active full) ⟨[], [], []⟩

/-- The join `contributorNames.join(', ')` − JavaScript `join` renders `undefined`
elements as the empty string. -/
def joinNames (names : List (Option String)) : String :=
  String.intercalate ", " (names.map (fun o => o.getD ""))

/-- The contributor-relevant slice of the validated form data reaching
`handleFormSubmit` (`TicketFormData`; zod defaults make the string fields
present). -/
structure FormData where
  contributor : String
  contributors : List ContribEntry
  contributorIds : List Nat
  contributorNames : String
  contributorName : String
  contributorId : Option Nat
deriving DecidableEq, Repr

/-- The contributor fields of the `ticketData` object passed to `onSave`;
`none` models an absent (or `delete`d) key. -/
structure TicketOut where
  contributor : Option ContribEntry
  contributorId : Option Nat
  contributorName : Option String
  contributors : List ContribEntry
  contributorIds : List Nat
  contributorNames : Option String
deriving DecidableEq, Repr

/-- Embedding of the contributor-reconciliation part of `handleFormSubmit`
(TicketEditor.tsx lines 226−294): the `forEach` merge, the
joined `contributorNames` string, the legacy mirror of the first processed
entry, and the legacy-single-contributor fallback branch. -/
def handleFormSubmitContrib (active full : List Contributor)
    (data : FormData) : TicketOut :=
  let ticketData : TicketOut :=
    { contributor := some (.str data.contributor)
      contributorId := data.contributorId
      contributorName := some data.contributorName
      contributors := data.contributors
      contributorIds := data.contributorIds
      contributorNames := some data.contributorNames }
  if 0 < data.contributors.length then
    let r := processContributors active full data.contributors
    let t1 := { ticketData with
      contributors := r.processedContributors
      contributorIds := r.contributorIds
      contributorNames := some (joinNames r.contributorNames) }
    match r.processedContributors with
    | [] => t1
    | first :: _ =>
      let t2 := { t1 with contributor := some first }
      let t3 :=
        match r.contributorIds with
        | [] => t2
        | i :: _ => { t2 with contributorId := some i }
      let firstContributorName := firstSplitComma (joinNames r.contributorNames)
      if firstContributorName ≠ "" then
        { t3 with contributorName := some firstContributorName }
      else t3
  else
    if data.contributor ≠ "" then
      match Hooks.findContributorByName active full data.contributor with
      | some found =>
        { ticketData with
          contributor := some found.toEntry
          contributorId := some found.id
          contributorName := some found.name
          contributors := [found.toEntry]
          contributorIds := [found.id]
          contributorNames := some found.name }
      | none =>
        { ticketData with
          contributor := some (.str data.contributor)
          contributorName := some data.contributor
          contributors := [.str data.contributor]
          contributorNames := some data.contributor
          contributorId := none }
    else ticketData

end Editor

/-! ## `MultiContributorField` (ConsolidateTable.tsx): add/remove and
duplicate detection -/

namespace MultiContrib

/-- The component's local `getContributorName`:
`typeof c === 'string' ? c : (c.name || '')`. -/
def getContributorName : ContribEntry → String
  | .str s => s
  | .obj _ name => name.getD ""

/-- The component's local `getContributorId`:
`typeof c === 'object' && c.id ? c.id : undefined`. -/
def getContributorId : ContribEntry → Option Nat
  | .str _ => none
  | .obj id _ => if idTruthy id then id else none

/-- Embedding of `isContributorAlreadyAdded` (ConsolidateTable.tsx lines
365−379): for each existing entry, the identity rule
(`newId && existingId && newId === existingId`) is checked first and, when
it does not fire, the case-insensitive display-name rule decides. -/
def isContributorAlreadyAdded (contributors : List ContribEntry)
    (newContributor : ContribEntry) : Bool :=
  let newName := getContributorName newContributor
  let newId := getContributorId newContributor
  contributors.any (fun existing =>
    let existingName := getContributorName existing
    let existingId := getContributorId existing
    match newId, existingId with
    | some a, some b =>
      if a = b then true else jsToLower newName == jsToLower existingName
    | _, _ => jsToLower newName == jsToLower existingName)

/-- The component state `addContributor` reads: the current list, the cap
(`maxContributors`, defaulted to 10 at every use site), and the three input
widgets. -/
structure AddFieldState where
  contributors : List ContribEntry
  maxContributors : Nat
  showCustomInput : Bool
  customName : String
  selectedValue : String
deriving DecidableEq, Repr

/-- Embedding of `addContributor` (ConsolidateTable.tsx lines 381−405),
returning the contributor list passed to `onChange` (unchanged when the
function returns without calling `onChange`; the code surfaces no error in
any branch):

```ts
if (contributors.length >= maxContributors) return;
let contributorToAdd = null;
if (showCustomInput && customName.trim()) contributorToAdd = customName.trim();
else if (selectedValue && selectedValue !== 'custom') {
  const found = findContributorByName(selectedValue);
  contributorToAdd = found ? found : selectedValue;
}
if (contributorToAdd && !isContributorAlreadyAdded(contributorToAdd)) {
  onChange([...contributors, contributorToAdd]);
}
``` -/
def addContributor (active full : List Contributor) (st : AddFieldState) :
    List ContribEntry :=
  if st.maxContributors ≤ st.contributors.length then st.contributors
  else
    let contributorToAdd : Option ContribEntry :=
      if st.showCustomInput && jsTrim st.customName ≠ "" then
        some (.str (jsTrim st.customName))
      else if st.selectedValue ≠ "" && st.selectedValue ≠ "custom" then
        match Hooks.findContributorByName active full st.selectedValue with
        | some found => some found.toEntry
        | none => some (.str st.selectedValue)
      else none
    match contributorToAdd with
    | some c =>
      if isContributorAlreadyAdded st.contributors c then st.contributors
      else st.contributors ++ [c]
    | none => st.contributors

/-- JavaScript `Array.prototype.filter` with the element-index callback,
counting from `i`. -/
def filterIdx {α : Type} (p : Nat → Bool) : Nat → List α → List α
  | _, [] => []
  | i, a :: l => if p i then a :: filterIdx p (i + 1) l else filterIdx p (i + 1) l

/-- Embedding of `removeContributor` (ConsolidateTable.tsx lines 407−410):
`contributors.filter((_, i) => i !== index)`. -/
def removeContributor (contributors : List ContribEntry) (index : Nat) :
    List ContribEntry :=
  filterIdx (fun i => i ≠ index) 0 contributors

end MultiContrib

/-! ## `src/services/ticketService.ts`: `updateTicket` payload shaping -/

namespace Service

/-- The wire value of the `contributorIds` key, which starts as the spread
numeric array and may be overwritten by a comma-joined string. -/
inductive IdsField where
  | nums (l : List Nat)
  | strv (s : String)
deriving DecidableEq, Repr

/-- The contributor-relevant slice of the `Partial<Ticket>` given to
`updateTicket`. -/
structure TicketIn where
  contributors : Option (List ContribEntry)
  contributor : Option ContribEntry
  contributorId : Option Nat
  contributorIds : Option (List Nat)
  contributorIdsList : Option (List Nat)
  contributorNames : Option String
  contributorName : Option String
deriving DecidableEq, Repr

/-- The contributor-relevant keys of the JSON body sent to
`PUT /api/tickets/:id/edit-json`; `none` is an absent (or `delete`d) key. -/
structure UpdatePayload where
  contributors : Option (List ContribEntry)
  contributor : Option ContribEntry
  contributorId : Option Nat
  contributorIds : Option IdsField
  contributorIdsList : Option (List Nat)
  contributorNames : Option String
  contributorName : Option String
deriving DecidableEq, Repr

/-- The `ticket.contributors.forEach` id-collection loop of `updateTicket`
(ticketService.ts lines 180−186): ids of object entries with a truthy
`id`, in order. -/
def collectIds (l : List ContribEntry) : List Nat :=
  l.foldl (fun acc e =>
    match e with
    | .obj oid _ => if idTruthy oid then acc ++ [oid.getD 0] else acc
    | .str _ => acc) []

/-- The join `contributorIds.join(',')`. -/
def joinCommaIds (ids : List Nat) : String :=
  String.intercalate "," (ids.map (fun i => toString i))

/-- The final `else` branch of the contributor handling in `updateTicket`
(lines 223−229): delete any leftover contributor fields. -/
def updateCleanup (ticketData : UpdatePayload) : UpdatePayload :=
  { ticketData with
    contributors := none
    contributor := none
    contributorIds := none
    contributorNames := none }

/-- The `else if (ticket.contributor)` branch of `updateTicket` (lines
209−222) together with the final cleanup `else`: legacy single-contributor
handling. -/
def updateLegacy (t : TicketIn) (ticketData : UpdatePayload) : UpdatePayload :=
  match t.contributor with
  | some e =>
    if entryTruthy e then
      match e with
      | .str s => { ticketData with contributorName := some s, contributor := none }
      | .obj oid oname =>
        let q1 := if idTruthy oid then { ticketData with contributorId := oid } else ticketData
        let q2 := if nameTruthy oname then { q1 with contributorName := oname } else q1
        { q2 with contributor := none }
    else updateCleanup ticketData
  | none => updateCleanup ticketData

/-- Embedding of the contributor shaping of `updateTicket` (ticketService.ts
lines 169−229).  The trailing `stringFields` coercion loop is the identity
on the modelled fields (`contributorName` is already a string or absent),
so it is not repeated here. -/
def updateTicketContrib (t : TicketIn) : UpdatePayload :=
  let ticketData : UpdatePayload :=
    { contributors := t.contributors
      contributor := t.contributor
      contributorId := t.contributorId
      contributorIds := t.contributorIds.map IdsField.nums
      contributorIdsList := t.contributorIdsList
      contributorNames := t.contributorNames
      contributorName := t.contributorName }
  match t.contributors with
  | some l =>
    if 0 < l.length then
      let contributorIds := collectIds l
      let p1 :=
        if 0 < contributorIds.length then
          { ticketData with
            contributorIdsList := some contributorIds
            contributorIds := some (.strv (joinCommaIds contributorIds)) }
        else ticketData
      let p2 :=
        match l.head? with
        | some (.obj oid oname) =>
          let q1 := if idTruthy oid then { p1 with contributorId := oid } else p1
          if nameTruthy oname then { q1 with contributorName := oname } else q1
        | _ => p1
      { p2 with contributors := none, contributor := none }
    else updateLegacy t ticketData
  | none => updateLegacy t ticketData

end Service

/-! ## Spec-side definitions

These follow the wording of the specification claims (not the code); they
exist to be compared with the embedded code. -/

/-- Claim wording for a single display name in `displayValue`:
"string entries verbatim; object entries via their `name` field". -/
def claimDisplayName (v : JSVal) : String :=
  match v with
  | .str s => s
  | _ => strOf (fieldOf v "name")

/-- The `displayValue` projection exactly as the claim states it: rule 1
returns a non-empty `contributorNames` string verbatim; rule 2 joins the
entries' display names (string entries verbatim, objects via `name`) with
`", "`; rule 3 returns the display name of `contributor`; rule 4 the empty
string. -/
def displayValueClaimed (t : JSVal) : String :=
  let cn := fieldOf t "contributorNames"
  if isStr cn && strOf cn ≠ "" then strOf cn
  else
    let cs := fieldOf t "contributors"
    if isArray cs && decide (0 < (arrOf cs).length) then
      String.intercalate ", " ((arrOf cs).map claimDisplayName)
    else
      let c := fieldOf t "contributor"
      if truthy c then claimDisplayName c else ""

/-- A contributor entry as described by the merge claim: a string, or an
object carrying a (truthy) numeric id. -/
def objHasId : ContribEntry → Bool
  | .str _ => true
  | .obj oid _ => idTruthy oid

/-- One merge step exactly as the claim states it: a string entry is
looked up and promoted when found, kept as plain text otherwise; an object
entry is accepted as-is, contributing its id to `ids` and its `name` field
to `names`. -/
def mergeClaimStep (active full : List Contributor) (acc : Editor.MergeResult) :
    ContribEntry → Editor.MergeResult
  | .str s =>
    match Hooks.findContributorByName active full s with
    | some found =>
      ⟨acc.processedContributors ++ [found.toEntry],
        acc.contributorIds ++ [found.id],
        acc.contributorNames ++ [some found.name]⟩
    | none =>
      ⟨acc.processedContributors ++ [.str s],
        acc.contributorIds,
        acc.contributorNames ++ [some s]⟩
  | .obj oid oname =>
    ⟨acc.processedContributors ++ [.obj oid oname],
      acc.contributorIds ++ [oid.getD 0],
      acc.contributorNames ++ [oname]⟩

/-- The merge exactly as the claim states it, folded in input order. -/
def mergeClaim (active full : List Contributor) (entries : List ContribEntry) :
    Editor.MergeResult :=
  entries.foldl (mergeClaimStep active full) ⟨[], [], []⟩

/-- Sameness of contributors as the uniqueness claim states it: rule (a)
both carry a directory identity and the identities are equal; otherwise
rule (b), display names equal case-insensitively. -/
def sameContributorClaim (a b : ContribEntry) : Bool :=
  (match MultiContrib.getContributorId a, MultiContrib.getContributorId b with
   | some x, some y => x = y
   | _, _ => false)
  || jsToLower (MultiContrib.getContributorName a)
      == jsToLower (MultiContrib.getContributorName b)

/-! ## Concrete inputs used by counterexamples and witnesses -/

/-- Directory entry `{id: 7, name: "Jane Smith"}` (active). -/
def jane : Contributor := ⟨7, "Jane Smith", "jane@example.com", true⟩

/-- A directory entry with a blank name (the degenerate record the blank-
lookup claim is about). -/
def blankContributor : Contributor := ⟨1, "", "blank@example.com", true⟩

/-- A ticket whose `contributors` array holds a padded name and a
whitespace-only name (no `contributorNames` string). -/
def trimTicket : JSVal :=
  .obj [("contributors", .arr [.str "  C  ", .str "   "]),
        ("contributor", .str "D")]

/-- The ticket of the claim's precedence scenario: `contributorNames="A, B"`,
`contributors=[{name:"C"}]`, `contributor="D"` simultaneously set. -/
def abTicket : JSVal :=
  .obj [("contributorNames", .str "A, B"),
        ("contributors", .arr [.obj [("name", .str "C")]]),
        ("contributor", .str "D")]

/-! ## Claim C1 -/

/-- C1, counterexample: the claim demands that rule 2 join string entries
*verbatim*, but the code trims each display name and drops empty ones.  On
a ticket with `contributors = ["  C  ", "   "]` the code renders `"C"`
while the claimed projection renders `"  C  ,    "`. -/
theorem c1_display_value_counterexample :
    Validation.getContributorDisplayValue trimTicket = .ok "C"
    ∧ displayValueClaimed trimTicket = "  C  ,    "
    ∧ ("C" : String) ≠ "  C  ,    " :=
  ⟨rfl, rfl, by decide⟩

/-- C1, amended: the display-value projection follows the claimed
precedence (backend `contributorNames` string verbatim, then the
`contributors` array, then the legacy `contributor`, else empty), except
that in rules 2 and 3 display names are *trimmed* (object entries
contribute their `name` field only when it is a truthy string, else the
empty string) and rule 2 *drops empty display names* before joining with
`", "`.  In particular the claim's all-fields-set scenario still renders
`"A, B"`, and the projection never throws. -/
theorem c1_display_value_amended :
    (∀ t : JSVal, Validation.getContributorDisplayValue t
        = .ok (Validation.displayValuePure t))
    ∧ Validation.getContributorDisplayValue abTicket = .ok "A, B" :=
  ⟨fun t => Validation.getContributorDisplayValue_ok t, rfl⟩

/-! ## Claim C7 -/

/-- C7: name resolution matches exactly and case-insensitively on the
`name` field only, so queries with the same lowercase form resolve
identically; the active-only cache is searched first (a hit there is the
result); and the result is `none` exactly when no case-insensitive match
exists in either cache. -/
theorem c7_resolve_case_insensitive :
    (∀ (active full : List Contributor) (q₁ q₂ : String),
      jsToLower q₁ = jsToLower q₂ →
      Hooks.findContributorByName active full q₁
        = Hooks.findContributorByName active full q₂)
    ∧ (∀ (active full : List Contributor) (q : String) (c : Contributor),
        active.find? (fun c => jsToLower c.name == jsToLower q) = some c →
        Hooks.findContributorByName active full q = some c)
    ∧ (∀ (active full : List Contributor) (q : String),
        Hooks.findContributorByName active full q = none
          ↔ ((∀ c ∈ active, jsToLower c.name ≠ jsToLower q)
              ∧ (∀ c ∈ full, jsToLower c.name ≠ jsToLower q)))
    ∧ (∀ (active full : List Contributor) (q : String) (c : Contributor),
        (c ∈ active ∨ c ∈ full) → jsToLower c.name = jsToLower q →
        (Hooks.findContributorByName active full q).isSome = true) :=
  ⟨Hooks.findContributorByName_congr,
   Hooks.findContributorByName_active_first,
   Hooks.findContributorByName_none_iff,
   fun active full q c hmem hname => by
    rcases hres : Hooks.findContributorByName active full q with _ | d
    · rcases (Hooks.findContributorByName_none_iff active full q).mp hres with ⟨ha, hb⟩
      rcases hmem with hm | hm
      · exact absurd hname (ha c hm)
      · exact absurd hname (hb c hm)
    · rfl⟩

/-- C7, witness: in the directory `[jane]`, the queries `"JANE SMITH"` and
`"jane smith"` resolve identically, to `jane`. -/
theorem c7_resolve_case_insensitive_witness :
    jsToLower "JANE SMITH" = jsToLower "jane smith"
    ∧ Hooks.findContributorByName [jane] [] "JANE SMITH"
        = Hooks.findContributorByName [jane] [] "jane smith"
    ∧ Hooks.findContributorByName [jane] [] "JANE SMITH" = some jane :=
  ⟨by decide,
   c7_resolve_case_insensitive.1 [jane] [] "JANE SMITH" "jane smith" (by decide),
   by decide⟩

/-! ## Claim C8 -/

/-- C8, counterexample: the claim says an empty name resolves to
`NotFound` without a lookup, but `findContributorByName` has no blank
guard: the empty query matches a blank directory entry. -/
theorem c8_blank_lookup_counterexample :
    Hooks.findContributorByName [blankContributor] [] "" = some blankContributor :=
  by decide

/-- C8, amended: an empty or whitespace-only name is looked up like any
other name − there is no blank guard − so it resolves to `NotFound`
exactly when no directory entry (active or full) has a case-insensitively
equal name; in particular a blank query does match a blank directory entry
when one exists. -/
theorem c8_blank_lookup_amended (active full : List Contributor) (q : String)
    (_hq : jsTrim q = "") :
    Hooks.findContributorByName active full q = none
      ↔ ((∀ c ∈ active, jsToLower c.name ≠ jsToLower q)
          ∧ (∀ c ∈ full, jsToLower c.name ≠ jsToLower q)) :=
  Hooks.findContributorByName_none_iff active full q

/-- C8, witness: instantiating the amended characterization at the empty
query over the blank directory shows the resolution is not `NotFound`
there. -/
theorem c8_blank_lookup_amended_witness :
    jsTrim "" = ""
    ∧ ¬Hooks.findContributorByName [blankContributor] [] "" = none :=
  ⟨rfl,
   fun h =>
     absurd rfl
       (((c8_blank_lookup_amended [blankContributor] [] "" rfl).mp h).1
         blankContributor (by decide))⟩

/-! ## Claim C9 -/

/-- C9: the normalization helpers of `validation.ts` are total and never
throw: on every input − including `null`/`undefined`, objects without
`id`/`name`, and non-string `name` fields − they return a best-effort
normalized value (the entry's best string form, the entry dropped, or the
empty string). -/
theorem c9_normalization_total :
    (∀ v : JSVal, ∃ s, Validation.getContributorName v = .ok s)
    ∧ (∀ v : JSVal, ∃ ns, Validation.getContributorNames v = .ok ns)
    ∧ (∀ v : JSVal, ∃ s, Validation.getContributorNamesString v = .ok s)
    ∧ (∀ v : JSVal, ∃ s, Validation.getContributorDisplayValue v = .ok s)
    ∧ Validation.getContributorName .null = .ok ""
    ∧ Validation.getContributorName .undefined = .ok ""
    ∧ Validation.getContributorName (.obj []) = .ok ""
    ∧ Validation.getContributorName (.obj [("name", .num 7)]) = .ok ""
    ∧ Validation.getContributorNames (.arr [.null, .obj [], .str " x "])
        = .ok ["x"]
    ∧ Validation.getContributorDisplayValue .null = .ok "" :=
  ⟨fun v => ⟨_, Validation.getContributorName_ok v⟩,
   fun v => ⟨_, Validation.getContributorNames_ok v⟩,
   fun v => ⟨_, Validation.getContributorNamesString_ok v⟩,
   fun v => ⟨_, Validation.getContributorDisplayValue_ok v⟩,
   rfl, rfl, rfl, rfl, rfl, rfl⟩

/-! ## Claim C2 -/

theorem processContributors_foldl_eq (active full : List Contributor) :
    ∀ (entries : List ContribEntry) (acc : Editor.MergeResult),
      (∀ e ∈ entries, objHasId e = true) →
      entries.foldl (Editor.processStep active full) acc
        = entries.foldl (mergeClaimStep active full) acc := by
  intro entries
  induction entries with
  | nil => intro acc _; rfl
  | cons e rest ih =>
    intro acc h
    have he : objHasId e = true := h e (List.mem_cons_self e rest)
    have hrest : ∀ x ∈ rest, objHasId x = true :=
      fun x hx => h x (List.mem_cons_of_mem e hx)
    have hstep : Editor.processStep active full acc e = mergeClaimStep active full acc e := by
      cases e with
      | str s => rfl
      | obj oid oname =>
        simp only [objHasId] at he
        simp [Editor.processStep, mergeClaimStep, he]
    simp only [List.foldl_cons, hstep]
    exact ih _ hrest

/-- C2: on lists of string entries and id-carrying object entries, the
submit-path merge processes entries in input order exactly as the claim
describes: strings are looked up and promoted when found (contributing the
resolved id and name) or kept as plain text (contributing only their
literal text to `names`), and id-carrying objects are accepted as-is. -/
theorem c2_merge_follows_claim (active full : List Contributor)
    (entries : List ContribEntry) (h : ∀ e ∈ entries, objHasId e = true) :
    Editor.processContributors active full entries = mergeClaim active full entries :=
  processContributors_foldl_eq active full entries ⟨[], [], []⟩ h

/-- C2, witness: the claim's concrete scenario − directory
`[{id:7, name:"Jane Smith"}]`, input `["jane smith", "New Person"]` −
merges to `objects=[{7,"Jane Smith"}, "New Person"]`, `ids=[7]`,
`names=["Jane Smith","New Person"]`. -/
theorem c2_merge_follows_claim_witness :
    (∀ e ∈ [ContribEntry.str "jane smith", ContribEntry.str "New Person"],
      objHasId e = true)
    ∧ Editor.processContributors [jane] []
          [ContribEntry.str "jane smith", ContribEntry.str "New Person"]
        = mergeClaim [jane] []
            [ContribEntry.str "jane smith", ContribEntry.str "New Person"]
    ∧ Editor.processContributors [jane] []
          [ContribEntry.str "jane smith", ContribEntry.str "New Person"]
        = ⟨[.obj (some 7) (some "Jane Smith"), .str "New Person"], [7],
            [some "Jane Smith", some "New Person"]⟩ :=
  ⟨by decide,
   c2_merge_follows_claim [jane] [] _ (by decide),
   by decide⟩

/-! ## Claim C3 -/

/-- C3: on the update path, when the `contributors` array contains object
entries with (truthy) ids, the outbound payload carries `contributorIdsList`
as the numeric id array, `contributorIds` as the same ids comma-joined into
a string, and neither a `contributors` nor a `contributor` key. -/
theorem c3_update_payload_shape (t : Service.TicketIn) (l : List ContribEntry)
    (hc : t.contributors = some l) (hids : Service.collectIds l ≠ []) :
    (Service.updateTicketContrib t).contributorIdsList = some (Service.collectIds l)
    ∧ (Service.updateTicketContrib t).contributorIds
        = some (Service.IdsField.strv (Service.joinCommaIds (Service.collectIds l)))
    ∧ (Service.updateTicketContrib t).contributors = none
    ∧ (Service.updateTicketContrib t).contributor = none := by
  have hl : l ≠ [] := fun h => hids (by simp [h, Service.collectIds])
  have hilen : 0 < (Service.collectIds l).length := List.length_pos.mpr hids
  rcases l with _ | ⟨e, rest⟩
  · exact absurd rfl hl
  · have hlen : 0 < (e :: rest).length := by simp
    cases e with
    | str s =>
      simp [Service.updateTicketContrib, hc, hlen, hilen]
    | obj oid oname =>
      by_cases h1 : idTruthy oid = true <;> by_cases h2 : nameTruthy oname = true <;>
        simp [Service.updateTicketContrib, hc, hlen, hilen, h1, h2]

/-- The update-path input of the claim's third concrete scenario. -/
def cThreeTicket : Service.TicketIn :=
  ⟨some [ContribEntry.obj (some 7) (some "Jane"), ContribEntry.obj (some 9) (some "Amit")],
    none, none, none, none, none, none⟩

/-- C3, witness: for `objects=[{id:7,name:"Jane"}, {id:9,name:"Amit"}]` the
update payload contains `contributorIdsList=[7,9]`, `contributorIds="7,9"`,
and no `contributors` or `contributor` key. -/
theorem c3_update_payload_shape_witness :
    Service.collectIds
        [ContribEntry.obj (some 7) (some "Jane"), ContribEntry.obj (some 9) (some "Amit")]
      = [7, 9]
    ∧ (Service.updateTicketContrib cThreeTicket).contributorIdsList = some [7, 9]
    ∧ (Service.updateTicketContrib cThreeTicket).contributorIds
        = some (Service.IdsField.strv "7,9")
    ∧ (Service.updateTicketContrib cThreeTicket).contributors = none
    ∧ (Service.updateTicketContrib cThreeTicket).contributor = none := by
  have h := c3_update_payload_shape cThreeTicket
    [ContribEntry.obj (some 7) (some "Jane"), ContribEntry.obj (some 9) (some "Amit")]
    rfl (by decide)
  exact ⟨by decide, h.1.trans (by decide), h.2.1.trans (by decide), h.2.2.1, h.2.2.2⟩

/-! ## Claims C4 and C5: the interactive add step -/

/-- The function `addContributor` either leaves the list unchanged or appends exactly
one entry that is not a duplicate of any already-accepted entry, and it
appends only below the cap. -/
theorem addContributor_cases (active full : List Contributor)
    (st : MultiContrib.AddFieldState) :
    MultiContrib.addContributor active full st = st.contributors
    ∨ ∃ c, MultiContrib.addContributor active full st = st.contributors ++ [c]
        ∧ MultiContrib.isContributorAlreadyAdded st.contributors c = false
        ∧ st.contributors.length < st.maxContributors := by
  by_cases h : st.maxContributors ≤ st.contributors.length
  · left
    simp [MultiContrib.addContributor, h]
  · have hlt : st.contributors.length < st.maxContributors := by omega
    by_cases hcu : st.showCustomInput = true ∧ ¬jsTrim st.customName = ""
    · by_cases hdup : MultiContrib.isContributorAlreadyAdded st.contributors
          (.str (jsTrim st.customName)) = true
      · left
        simp [MultiContrib.addContributor, h, hcu.1, hcu.2, hdup]
      · right
        refine ⟨_, ?_, by simpa using hdup, hlt⟩
        simp [MultiContrib.addContributor, h, hcu.1, hcu.2, hdup]
    · by_cases hsv : ¬st.selectedValue = "" ∧ ¬st.selectedValue = "custom"
      · rcases hf : Hooks.findContributorByName active full st.selectedValue with _ | found
        · by_cases hdup : MultiContrib.isContributorAlreadyAdded st.contributors
              (.str st.selectedValue) = true
          · left
            simp [MultiContrib.addContributor, h, hcu, hsv, hf, hdup]
          · right
            refine ⟨_, ?_, by simpa using hdup, hlt⟩
            simp [MultiContrib.addContributor, h, hcu, hsv, hf, hdup]
        · by_cases hdup : MultiContrib.isContributorAlreadyAdded st.contributors
              found.toEntry = true
          · left
            simp [MultiContrib.addContributor, h, hcu, hsv, hf, hdup]
          · right
            refine ⟨_, ?_, by simpa using hdup, hlt⟩
            simp [MultiContrib.addContributor, h, hcu, hsv, hf, hdup]
      · left
        simp [MultiContrib.addContributor, h, hcu, hsv]

/-- C4: the add step preserves the ≤ cap invariant, and with the default
cap of 10 an attempt to add an 11th entry to a full list of 10 leaves the
list unchanged (the code's early return surfaces no error). -/
theorem c4_contributor_cap (active full : List Contributor)
    (st : MultiContrib.AddFieldState) :
    (st.contributors.length ≤ st.maxContributors →
      (MultiContrib.addContributor active full st).length ≤ st.maxContributors)
    ∧ (st.maxContributors = 10 → st.contributors.length = 10 →
        MultiContrib.addContributor active full st = st.contributors) := by
  rcases addContributor_cases active full st with h | ⟨c, heq, -, hlt⟩
  · rw [h]
    exact ⟨fun hle => hle, fun _ _ => rfl⟩
  · rw [heq]
    constructor
    · intro _
      simp only [List.length_append, List.length_cons, List.length_nil]
      omega
    · intro h10 hlen
      exact absurd hlt (by omega)

/-- A full list of ten contributors. -/
def fullTen : List ContribEntry :=
  [.str "a", .str "b", .str "c", .str "d", .str "e",
   .str "f", .str "g", .str "h", .str "i", .str "j"]

/-- C4, witness: with 10 contributors already present, attempting to add
the (unique) custom name `"New Person"` leaves the list unchanged. -/
theorem c4_contributor_cap_witness :
    MultiContrib.addContributor [] [] ⟨fullTen, 10, true, "New Person", ""⟩
      = fullTen :=
  (c4_contributor_cap [] [] ⟨fullTen, 10, true, "New Person", ""⟩).2 rfl (by decide)

theorem any_congr_fun {α : Type} (l : List α) (p q : α → Bool)
    (h : ∀ a, p a = q a) : l.any p = l.any q := by
  induction l with
  | nil => rfl
  | cons b tl ih => simp [List.any_cons, h b, ih]

/-- C5, counterexample: the submit-path merge performs no deduplication −
merging `["X", "X"]` (empty directory) keeps both copies even though they
are "the same contributor" by the code's own duplicate test. -/
theorem c5_merge_keeps_duplicates :
    (Editor.processContributors [] []
        [ContribEntry.str "X", ContribEntry.str "X"]).processedContributors
      = [ContribEntry.str "X", ContribEntry.str "X"]
    ∧ MultiContrib.isContributorAlreadyAdded
        [ContribEntry.str "X"] (ContribEntry.str "X") = true :=
  ⟨by decide, by decide⟩

/-- C5, amended: duplicate skipping is enforced only at the interactive add
step, not by the submit-path merge.  `addContributor` never appends an
entry that is the same contributor as an already-accepted one, where the
code's duplicate test agrees with the claimed rule − identity equality
when both entries carry one, checked before the case-insensitive
display-name fallback; the submit-path merge itself performs no
deduplication (see the counterexample). -/
theorem c5_dedup_amended :
    (∀ (active full : List Contributor) (st : MultiContrib.AddFieldState),
      MultiContrib.addContributor active full st = st.contributors
      ∨ ∃ c, MultiContrib.addContributor active full st = st.contributors ++ [c]
          ∧ MultiContrib.isContributorAlreadyAdded st.contributors c = false)
    ∧ (∀ (l : List ContribEntry) (a : ContribEntry),
        MultiContrib.isContributorAlreadyAdded l a
          = l.any (fun b => sameContributorClaim a b)) := by
  constructor
  · intro active full st
    rcases addContributor_cases active full st with h | ⟨c, heq, hdup, -⟩
    · exact Or.inl h
    · exact Or.inr ⟨c, heq, hdup⟩
  · intro l a
    unfold MultiContrib.isContributorAlreadyAdded
    refine any_congr_fun l _ _ (fun b => ?_)
    unfold sameContributorClaim
    rcases hA : MultiContrib.getContributorId a with _ | x <;>
      rcases hB : MultiContrib.getContributorId b with _ | y <;>
        simp [hA, hB]

/-! ## Claim C6 -/

/-- The form data of the mirror counterexample: contributors
`["X", {id:9, name:"Amit"}]`, everything else empty. -/
def cSixData : Editor.FormData :=
  ⟨"", [ContribEntry.str "X", ContribEntry.obj (some 9) (some "Amit")],
    [], "", "", none⟩

/-- C6, counterexample: the claim says `contributorId` mirrors the first
entry's id "when it has one", but the code takes the first *collected* id.
With contributors `["X", {id:9,name:"Amit"}]` (empty directory) the first
entry is the plain string `"X"` − which carries no id − yet the outbound
`contributorId` is `9`, the id of the *second* entry. -/
theorem c6_mirror_counterexample :
    (Editor.handleFormSubmitContrib [] [] cSixData).contributor
        = some (ContribEntry.str "X")
    ∧ MultiContrib.getContributorId (ContribEntry.str "X") = none
    ∧ (Editor.handleFormSubmitContrib [] [] cSixData).contributorId = some 9 :=
  ⟨by decide, by decide, by decide⟩

/-- C6, amended: when the merge produces a non-empty list, its first entry
is mirrored into `contributor`; `contributorName` becomes the first
comma-separated component of the joined display names (falling back to the
incoming form value when that component is empty); and `contributorId`
becomes the first *collected* id − the id of the first id-carrying
accepted entry, which need not belong to the first entry − or stays the
incoming form value when no id was collected.  When the array is empty and
a non-empty free-text legacy `contributor` has no directory match, the
legacy fields preserve it as-is and `contributorId` is deleted. -/
theorem c6_legacy_mirror_amended (active full : List Contributor)
    (data : Editor.FormData) :
    (∀ first rest,
      0 < data.contributors.length →
      (Editor.processContributors active full data.contributors).processedContributors
          = first :: rest →
      (Editor.handleFormSubmitContrib active full data).contributor = some first
      ∧ (Editor.handleFormSubmitContrib active full data).contributorId
          = (match (Editor.processContributors active full data.contributors).contributorIds with
             | [] => data.contributorId
             | i :: _ => some i)
      ∧ (Editor.handleFormSubmitContrib active full data).contributorName
          = (if firstSplitComma (Editor.joinNames
                  (Editor.processContributors active full data.contributors).contributorNames)
                ≠ ""
             then some (firstSplitComma (Editor.joinNames
                  (Editor.processContributors active full data.contributors).contributorNames))
             else some data.contributorName))
    ∧ (data.contributors = [] → data.contributor ≠ "" →
        Hooks.findContributorByName active full data.contributor = none →
        (Editor.handleFormSubmitContrib active full data).contributor
            = some (.str data.contributor)
        ∧ (Editor.handleFormSubmitContrib active full data).contributorName
            = some data.contributor
        ∧ (Editor.handleFormSubmitContrib active full data).contributorId = none) := by
  constructor
  · intro first rest hlen hproc
    simp only [Editor.handleFormSubmitContrib]
    rw [if_pos hlen, hproc]
    rcases hids : (Editor.processContributors active full data.contributors).contributorIds
      with _ | ⟨i, is⟩ <;>
      by_cases hfn : firstSplitComma (Editor.joinNames
          (Editor.processContributors active full data.contributors).contributorNames) ≠ "" <;>
        simp_all
  · intro hempty hcontr hfind
    simp only [Editor.handleFormSubmitContrib]
    rw [if_neg (by simp [hempty]), if_pos hcontr, hfind]
    exact ⟨rfl, rfl, rfl⟩

/-- C6, witness: on the counterexample data the amended mirror rule holds −
`contributor = "X"`, `contributorId = 9` (the first collected id), and
`contributorName = "X"` (the first component of `"X, Amit"`). -/
theorem c6_legacy_mirror_amended_witness :
    (Editor.handleFormSubmitContrib [] [] cSixData).contributor
        = some (ContribEntry.str "X")
    ∧ (Editor.handleFormSubmitContrib [] [] cSixData).contributorId = some 9
    ∧ (Editor.handleFormSubmitContrib [] [] cSixData).contributorName = some "X" := by
  have h := (c6_legacy_mirror_amended [] [] cSixData).1 (ContribEntry.str "X")
    [ContribEntry.obj (some 9) (some "Amit")] (by decide) (by decide)
  exact ⟨h.1, h.2.1.trans (by decide), h.2.2.trans (by decide)⟩

/-! ## Claim C10 -/

theorem filterIdx_gt {α : Type} (idx : Nat) :
    ∀ (l : List α) (m : Nat), idx < m →
      MultiContrib.filterIdx (fun j => j ≠ idx) m l = l := by
  intro l
  induction l with
  | nil => intro m _; rfl
  | cons a tl ih =>
    intro m h
    have hm : (decide (m ≠ idx)) = true := by simp; omega
    simp only [MultiContrib.filterIdx, hm, if_true]
    rw [ih (m + 1) (by omega)]

theorem filterIdx_eraseIdx {α : Type} (idx : Nat) :
    ∀ (l : List α) (m i : Nat), m + i = idx → i < l.length →
      MultiContrib.filterIdx (fun j => j ≠ idx) m l = l.eraseIdx i := by
  intro l
  induction l with
  | nil => intro m i _ h; simp at h
  | cons a tl ih =>
    intro m i heq hlt
    cases i with
    | zero =>
      have hm : m = idx := by omega
      have hmf : (decide (m ≠ idx)) = false := by simp [hm]
      simp only [MultiContrib.filterIdx, hmf, if_false, List.eraseIdx]
      exact filterIdx_gt idx tl (m + 1) (by omega)
    | succ i =>
      have hm : (decide (m ≠ idx)) = true := by simp; omega
      simp only [MultiContrib.filterIdx, hm, if_true, List.eraseIdx]
      rw [ih (m + 1) i (by omega) (by simpa using Nat.lt_of_succ_lt_succ hlt)]

/-- C10: removing the contributor at a valid index produces exactly the
original list with that entry deleted − all other entries unchanged, in
order − and the length decreases by exactly one. -/
theorem c10_remove_contributor (l : List ContribEntry) (i : Nat)
    (h : i < l.length) :
    MultiContrib.removeContributor l i = l.eraseIdx i
    ∧ (MultiContrib.removeContributor l i).length + 1 = l.length := by
  have he : MultiContrib.removeContributor l i = l.eraseIdx i :=
    filterIdx_eraseIdx i l 0 i (by omega) h
  refine ⟨he, ?_⟩
  rw [he, List.length_eraseIdx]
  simp only [h, if_true]
  omega

/-- C10, witness: removing index 1 of a three-entry list keeps entries 0
and 2 in order. -/
theorem c10_remove_contributor_witness :
    MultiContrib.removeContributor
        [ContribEntry.str "a", ContribEntry.str "b", ContribEntry.str "c"] 1
      = ([ContribEntry.str "a", ContribEntry.str "b", ContribEntry.str "c"] :
          List ContribEntry).eraseIdx 1
    ∧ MultiContrib.removeContributor
        [ContribEntry.str "a", ContribEntry.str "b", ContribEntry.str "c"] 1
      = [ContribEntry.str "a", ContribEntry.str "c"] :=
  ⟨(c10_remove_contributor _ 1 (by decide)).1, by decide⟩
